import Mathlib

/-!
Shallow embedding of `nextage_ros_bridge/base_hands.py` (class `BaseHands`):
the masked digital-output register writer `_dio_writer`, the initialization
operation `init_dio`, the constructor guard of `BaseHands.__init__`, and the
gesture stubs.  Machine-level details that matter here are Python list
semantics: `l[i] = v` supports negative indices (counted from the end) and
raises `IndexError` outside `[-len, len)`, and `a = b = []` makes `a` and `b`
aliases of one single list object.
-/

/-- `BaseHands._DIO_ASSIGN_ON = 1` (source line 52). -/
def DIO_ASSIGN_ON : Nat := 1

/-- `BaseHands._DIO_ASSIGN_OFF = 0` (source line 53). -/
def DIO_ASSIGN_OFF : Nat := 0

/-- `BaseHands._DIO_MASK = 0` (source line 54): masking value is always 0. -/
def DIO_MASK : Nat := 0

/-- `BaseHands._MSG_ERR_NOTIMPLEMENTED` (source line 73). -/
def MSG_ERR_NOTIMPLEMENTED : String :=
  "The method is not implemented in the derived class"

/-- Python list element assignment `l[i] = v` for `i : Int`:
a nonnegative index in range writes that position; a negative index in
range writes position `i + len` (counting from the end, so `l[-1]` is the
last element); anything else raises `IndexError`, modelled as `none`. -/
def pyListSet (l : List Nat) (i : Int) (v : Nat) : Option (List Nat) :=
  if 0 ≤ i ∧ i < (l.length : Int) then
    some (l.set i.toNat v)
  else if -(l.length : Int) ≤ i ∧ i < 0 then
    some (l.set (i + (l.length : Int)).toNat v)
  else
    none

/-- The writer's assignment loops (source lines 140-141 and 144-147):
`for i in indices: l[i - 1] = v`, performed left to right; the first
out-of-range index raises `IndexError` (`none`). -/
def assignBits (l : List Nat) (indices : List Int) (v : Nat) : Option (List Nat) :=
  match indices with
  | [] => some l
  | i :: rest =>
    match pyListSet l (i - 1) v with
    | some l2 => assignBits l2 rest v
    | none => none

/-- `signal_alternate` computation (source lines 135-137): starts as
`_DIO_ASSIGN_ON` and is flipped to `_DIO_ASSIGN_OFF` when the padding is
`_DIO_ASSIGN_ON`. -/
def signalAlternate (padding : Nat) : Nat :=
  if padding == DIO_ASSIGN_ON then DIO_ASSIGN_OFF else DIO_ASSIGN_ON

/-- The pair of 32-element arrays `_dio_writer` hands to
`writeDigitalOutputWithMask`. -/
structure DioVectors where
  dout : List Nat
  mask : List Nat
deriving DecidableEq, Repr

/-- The pure part of `_dio_writer` (source lines 125-147): build `dout` as
32 copies of `padding`, `mask` as 32 copies of `_DIO_MASK`, then set
`dout[i - 1] = signal_alternate` for each commanded index and
`mask[i - 1] = 1` for each assignment index.  `none` models an
`IndexError` escaping the method (the `try` block only catches
`AttributeError`). -/
def dioVectors (digitalout_indices dio_assignments : List Int) (padding : Nat) :
    Option DioVectors :=
  match assignBits (List.replicate 32 padding) digitalout_indices
          (signalAlternate padding),
        assignBits (List.replicate 32 DIO_MASK) dio_assignments 1 with
  | some dout, some mask => some ⟨dout, mask⟩
  | _, _ => none

/-- Outcome of one call to the injected
`parent.writeDigitalOutputWithMask(dout, mask)` capability: either it
returns a boolean, or looking the method up on `parent` raises
`AttributeError` (capability missing, e.g. on a simulator). -/
inductive HwResponse where
  | ok (b : Bool)
  | attributeError
deriving DecidableEq, Repr

/-- Observable outcome of one `_dio_writer` call: the returned boolean,
the list of `(dout, mask)` argument pairs passed to
`writeDigitalOutputWithMask`, and the number of `rospy.logerr` lines
emitted. -/
structure WriterResult where
  retval : Bool
  hwCalls : List (List Nat × List Nat)
  errLogs : Nat
deriving DecidableEq, Repr

/-- `BaseHands._dio_writer` (source lines 88-175), with the hardware
collaborator `hw` passed explicitly.  After computing the vectors it sets
`is_written_dout = False`, calls `writeDigitalOutputWithMask(dout, mask)`
once inside `try`; an `AttributeError` is caught and answered with two
`rospy.logerr` lines, leaving the return value `False`; any other result
is returned as is.  `none` models an `IndexError` raised while building
the vectors (before any hardware call). -/
def dio_writer (hw : List Nat → List Nat → HwResponse)
    (digitalout_indices dio_assignments : List Int) (padding : Nat) :
    Option WriterResult :=
  match dioVectors digitalout_indices dio_assignments padding with
  | none => none
  | some v =>
    match hw v.dout v.mask with
    | HwResponse.ok b => some ⟨b, [(v.dout, v.mask)], 0⟩
    | HwResponse.attributeError => some ⟨false, [(v.dout, v.mask)], 2⟩

/-- `BaseHands.init_dio` (source lines 177-195).  The statement
`dout = mask = []` binds BOTH names to one single list object, so the
subsequent `mask.append(i)` loop over `range(16, 32)` grows that shared
list: the writer is called with `digitalout_indices` and
`dio_assignments` both equal to `[16, 17, ..., 31]`, and padding
`_DIO_ASSIGN_ON`. -/
def init_dio (hw : List Nat → List Nat → HwResponse) : Option WriterResult :=
  let shared : List Int := (List.range' 16 16).map (fun n => (n : Int))
  dio_writer hw shared shared DIO_ASSIGN_ON

/-- The object state `BaseHands.__init__` leaves behind: `parent = none`
means the attribute `_parent` was never assigned. -/
structure BaseHandsObj (P : Type) where
  parent : Option P
deriving DecidableEq, Repr

/-- `BaseHands.__init__` (source lines 75-86), with Python exceptions
modelled by `Except`.  A falsy `parent` (modelled as `none`) makes
`__init__` `return` early: no exception is raised and `_parent` is never
assigned, leaving a partially initialized object. -/
def baseHandsInit {P : Type} (parent : Option P) : Except String (BaseHandsObj P) :=
  match parent with
  | none => Except.ok ⟨none⟩
  | some p => Except.ok ⟨some p⟩

/-- The gesture operations declared on `BaseHands` (source lines 200-249). -/
inductive Gesture where
  | airhand_l_drawin
  | airhand_r_drawin
  | airhand_l_keep
  | airhand_r_keep
  | airhand_l_release
  | airhand_r_release
  | gripper_l_close
  | gripper_r_close
  | gripper_l_open
  | gripper_r_open
  | handlight_r (is_on : Bool)
  | handlight_l (is_on : Bool)
  | handlight_both (is_on : Bool)
  | handtool_l_eject
  | handtool_r_eject
  | handtool_l_attach
  | handtool_r_attach
deriving DecidableEq, Repr

/-- Calling a gesture on the base class: every method body is
`raise NotImplementedError(self._MSG_ERR_NOTIMPLEMENTED)` (source
lines 200-249), modelled as `Except.error` carrying the message. -/
def gestureCall (g : Gesture) : Except String Unit :=
  match g with
  | Gesture.airhand_l_drawin => Except.error MSG_ERR_NOTIMPLEMENTED
  | Gesture.airhand_r_drawin => Except.error MSG_ERR_NOTIMPLEMENTED
  | Gesture.airhand_l_keep => Except.error MSG_ERR_NOTIMPLEMENTED
  | Gesture.airhand_r_keep => Except.error MSG_ERR_NOTIMPLEMENTED
  | Gesture.airhand_l_release => Except.error MSG_ERR_NOTIMPLEMENTED
  | Gesture.airhand_r_release => Except.error MSG_ERR_NOTIMPLEMENTED
  | Gesture.gripper_l_close => Except.error MSG_ERR_NOTIMPLEMENTED
  | Gesture.gripper_r_close => Except.error MSG_ERR_NOTIMPLEMENTED
  | Gesture.gripper_l_open => Except.error MSG_ERR_NOTIMPLEMENTED
  | Gesture.gripper_r_open => Except.error MSG_ERR_NOTIMPLEMENTED
  | Gesture.handlight_r _ => Except.error MSG_ERR_NOTIMPLEMENTED
  | Gesture.handlight_l _ => Except.error MSG_ERR_NOTIMPLEMENTED
  | Gesture.handlight_both _ => Except.error MSG_ERR_NOTIMPLEMENTED
  | Gesture.handtool_l_eject => Except.error MSG_ERR_NOTIMPLEMENTED
  | Gesture.handtool_r_eject => Except.error MSG_ERR_NOTIMPLEMENTED
  | Gesture.handtool_l_attach => Except.error MSG_ERR_NOTIMPLEMENTED
  | Gesture.handtool_r_attach => Except.error MSG_ERR_NOTIMPLEMENTED

/-- A 1-based index in `[1, length]` lands in the nonnegative branch of the
Python assignment and writes 0-based position `i - 1`. -/
theorem pyListSet_pos (l : List Nat) (i : Int) (v : Nat)
    (h1 : 1 ≤ i) (h2 : i ≤ (l.length : Int)) :
    pyListSet l (i - 1) v = some (l.set (i - 1).toNat v) := by
  unfold pyListSet
  rw [if_pos (by omega : 0 ≤ i - 1 ∧ i - 1 < (l.length : Int))]

/-- Characterization of the writer's assignment loop on 1-based indices in
range: it succeeds, preserves the length, and position `p` holds `v`
exactly when `p + 1` is listed, otherwise the original entry. -/
theorem assignBits_spec (v : Nat) :
    ∀ (idx : List Int) (l : List Nat),
      (∀ i ∈ idx, 1 ≤ i ∧ i ≤ (l.length : Int)) →
      ∃ l', assignBits l idx v = some l' ∧ l'.length = l.length ∧
        ∀ p : Nat, p < l.length →
          l'[p]? = if ((p : Int) + 1) ∈ idx then some v else l[p]?
  | [], l, _ => ⟨l, rfl, rfl, fun p _ => by simp⟩
  | i :: rest, l, hall => by
    obtain ⟨h1, h2⟩ := hall i (List.mem_cons_self i rest)
    have hset : pyListSet l (i - 1) v = some (l.set (i - 1).toNat v) :=
      pyListSet_pos l i v h1 h2
    have hlen2 : (l.set (i - 1).toNat v).length = l.length :=
      List.length_set l ((i - 1).toNat) v
    obtain ⟨l', hrec, hlen, hpt⟩ :=
      assignBits_spec v rest (l.set (i - 1).toNat v)
        (fun j hj => by
          have := hall j (List.mem_cons_of_mem i hj)
          omega)
    refine ⟨l', ?_, by omega, ?_⟩
    · unfold assignBits
      rw [hset]
      exact hrec
    · intro p hp
      rw [hpt p (by omega)]
      by_cases hmem : ((p : Int) + 1) ∈ rest
      · rw [if_pos hmem, if_pos (List.mem_cons_of_mem i hmem)]
      · by_cases heq : ((p : Int) + 1) = i
        · have hpj : (i - 1).toNat = p := by omega
          rw [if_neg hmem, if_pos (by rw [heq]; exact List.mem_cons_self i rest),
            hpj, List.getElem?_set_self hp]
        · have hne : (i - 1).toNat ≠ p := by omega
          rw [if_neg hmem, if_neg (by simp [List.mem_cons, hmem, heq]),
            List.getElem?_set_ne hne]

/-- Inverting a successful `dioVectors` run into its two assignment loops. -/
theorem dioVectors_inv (set_idx owned_idx : List Int) (padding : Nat)
    (v : DioVectors) (hv : dioVectors set_idx owned_idx padding = some v) :
    assignBits (List.replicate 32 padding) set_idx (signalAlternate padding) =
      some v.dout ∧
    assignBits (List.replicate 32 DIO_MASK) owned_idx 1 = some v.mask := by
  unfold dioVectors at hv
  cases hd : assignBits (List.replicate 32 padding) set_idx
      (signalAlternate padding) with
  | none => rw [hd] at hv; cases hv
  | some d =>
    cases hm : assignBits (List.replicate 32 DIO_MASK) owned_idx 1 with
    | none => rw [hd, hm] at hv; cases hv
    | some m =>
      rw [hd, hm] at hv
      cases hv
      exact ⟨rfl, rfl⟩

/-- The output vector of a successful writer run: `fill` everywhere except
at listed 1-based positions, which hold `signal_alternate`. -/
theorem dout_spec (set_idx owned_idx : List Int) (padding : Nat)
    (v : DioVectors) (hset : ∀ i ∈ set_idx, 1 ≤ i ∧ i ≤ 32)
    (hv : dioVectors set_idx owned_idx padding = some v) :
    v.dout.length = 32 ∧ ∀ p : Nat, p < 32 →
      v.dout[p]? = if ((p : Int) + 1) ∈ set_idx then
        some (signalAlternate padding) else some padding := by
  obtain ⟨hd, _⟩ := dioVectors_inv set_idx owned_idx padding v hv
  obtain ⟨l', hrun, hlen, hpt⟩ :=
    assignBits_spec (signalAlternate padding) set_idx
      (List.replicate 32 padding)
      (by simpa using hset)
  rw [hrun] at hd
  cases hd
  refine ⟨by simpa using hlen, fun p hp => ?_⟩
  rw [hpt p (by simpa using hp), List.getElem?_replicate_of_lt hp]

/-- The mask vector of a successful writer run: `1` exactly at listed
1-based positions, `0` elsewhere. -/
theorem mask_spec (set_idx owned_idx : List Int) (padding : Nat)
    (v : DioVectors) (howned : ∀ i ∈ owned_idx, 1 ≤ i ∧ i ≤ 32)
    (hv : dioVectors set_idx owned_idx padding = some v) :
    v.mask.length = 32 ∧ ∀ p : Nat, p < 32 →
      v.mask[p]? = if ((p : Int) + 1) ∈ owned_idx then some 1 else some 0 := by
  obtain ⟨_, hm⟩ := dioVectors_inv set_idx owned_idx padding v hv
  obtain ⟨l', hrun, hlen, hpt⟩ :=
    assignBits_spec 1 owned_idx (List.replicate 32 DIO_MASK)
      (by simpa using howned)
  rw [hrun] at hm
  cases hm
  refine ⟨by simpa using hlen, fun p hp => ?_⟩
  rw [hpt p (by simpa using hp), List.getElem?_replicate_of_lt hp]
  simp [DIO_MASK]

/-- A 32-element 0-1 vector whose `1` entries are exactly the positions
`i - 1` for listed 1-based indices `i` has as many `1` entries as there
are distinct listed indices. -/
theorem mask_count_ones (owned_idx : List Int) (m : List Nat)
    (howned : ∀ i ∈ owned_idx, 1 ≤ i ∧ i ≤ 32) (hlen : m.length = 32)
    (hpt : ∀ p : Nat, p < 32 →
      m[p]? = if ((p : Int) + 1) ∈ owned_idx then some 1 else some 0) :
    m.count 1 = owned_idx.dedup.length := by
  have hm : m = (List.range 32).map
      (fun p : Nat => if ((p : Int) + 1) ∈ owned_idx then 1 else 0) := by
    apply List.ext_getElem?
    intro n
    by_cases hn : n < 32
    · rw [hpt n hn, List.getElem?_map, List.getElem?_range hn]
      by_cases hmem : ((n : Int) + 1) ∈ owned_idx <;> simp [hmem]
    · rw [List.getElem?_eq_none (by omega),
        List.getElem?_eq_none (by simpa using by omega)]
  subst hm
  rw [List.count_eq_countP, List.countP_map,
    List.countP_congr (q := fun p : Nat => decide (((p : Int) + 1) ∈ owned_idx))
      (fun x _ => by by_cases hx : ((x : Int) + 1) ∈ owned_idx <;>
        simp [Function.comp, hx]),
    List.countP_eq_length_filter]
  have hperm : List.Perm
      ((List.range 32).filter
        (fun p : Nat => decide (((p : Int) + 1) ∈ owned_idx)))
      (owned_idx.dedup.map (fun i => (i - 1).toNat)) := by
    have hnd1 : ((List.range 32).filter
        (fun p : Nat => decide (((p : Int) + 1) ∈ owned_idx))).Nodup :=
      List.Nodup.filter _ (List.nodup_range 32)
    have hnd2 : (owned_idx.dedup.map (fun i => (i - 1).toNat)).Nodup := by
      refine List.Nodup.map_on ?_ owned_idx.nodup_dedup
      intro x hx y hy hxy
      have hx1 := howned x (List.mem_dedup.mp hx)
      have hy1 := howned y (List.mem_dedup.mp hy)
      omega
    have hsub1 : (List.range 32).filter
        (fun p : Nat => decide (((p : Int) + 1) ∈ owned_idx)) ⊆
        owned_idx.dedup.map (fun i => (i - 1).toNat) := by
      intro p hp
      rw [List.mem_filter, List.mem_range] at hp
      obtain ⟨hp1, hp2⟩ := hp
      rw [List.mem_map]
      refine ⟨(p : Int) + 1, List.mem_dedup.mpr (by simpa using hp2), by omega⟩
    have hsub2 : owned_idx.dedup.map (fun i => (i - 1).toNat) ⊆
        (List.range 32).filter
          (fun p : Nat => decide (((p : Int) + 1) ∈ owned_idx)) := by
      intro p hp
      rw [List.mem_map] at hp
      obtain ⟨i, hi, hip⟩ := hp
      have hmem := List.mem_dedup.mp hi
      have hib := howned i hmem
      rw [List.mem_filter, List.mem_range]
      have hpi : ((p : Int) + 1) = i := by omega
      exact ⟨by omega, by rw [hpi]; simpa using hmem⟩
    exact List.Subperm.antisymm (hnd1.subperm hsub1) (hnd2.subperm hsub2)
  rw [hperm.length_eq, List.length_map]

/-- C1: what `init_dio()` actually does.  Because `dout = mask = []` aliases
the two lists and the appended range is `range(16, 32) = [16..31]`, the
single writer invocation receives `digitalout_indices` equal to the mask
list (not empty), the mask carries its 16 `1` entries at 1-based positions
16..31 (position 16 lies in the range reserved for other subsystems and
position 32 is left unowned), and every owned position of the output
vector holds `DEASSERT` (`signal_alternate` of the `ASSERT` padding), not
`ASSERT`. -/
theorem init_dio_actual_call :
    init_dio (fun _ _ => HwResponse.ok true) =
      some ⟨true,
        [(List.replicate 15 1 ++ List.replicate 16 0 ++ [1],
          List.replicate 15 0 ++ List.replicate 16 1 ++ [0])], 0⟩ := by
  decide

/-- C2: for padding in `{ASSERT, DEASSERT}` and 1-based `set` indices in
`[1, 32]`, the output vector holds the padding everywhere outside the set
indices and the logical complement of the padding (computed as `ASSERT`
when the padding is `DEASSERT`, else `DEASSERT`) at every set index. -/
theorem dio_writer_output_spec (set_idx owned_idx : List Int) (padding : Nat)
    (hpad : padding = DIO_ASSIGN_OFF ∨ padding = DIO_ASSIGN_ON)
    (hset : ∀ i ∈ set_idx, 1 ≤ i ∧ i ≤ 32)
    (v : DioVectors) (hv : dioVectors set_idx owned_idx padding = some v) :
    v.dout.length = 32 ∧ ∀ p : Nat, p < 32 →
      v.dout[p]? = if ((p : Int) + 1) ∈ set_idx then
          some (if padding = DIO_ASSIGN_OFF then DIO_ASSIGN_ON else DIO_ASSIGN_OFF)
        else some padding := by
  obtain ⟨hlen, hpt⟩ := dout_spec set_idx owned_idx padding v hset hv
  have halt : signalAlternate padding =
      if padding = DIO_ASSIGN_OFF then DIO_ASSIGN_ON else DIO_ASSIGN_OFF := by
    rcases hpad with h | h <;> subst h <;> rfl
  exact ⟨hlen, fun p hp => by rw [hpt p hp, halt]⟩

/-- C2 witness: scenario A, `write(set={24}, owned={24, 25}, fill=DEASSERT)`:
output position 24 (1-based) holds `ASSERT`, position 1 holds `DEASSERT`. -/
theorem dio_writer_output_spec_witness :
    (List.replicate 23 0 ++ [1] ++ List.replicate 8 0 : List Nat)[23]? =
      some DIO_ASSIGN_ON ∧
    (List.replicate 23 0 ++ [1] ++ List.replicate 8 0 : List Nat)[0]? =
      some DIO_ASSIGN_OFF := by
  have h := dio_writer_output_spec [24] [24, 25] DIO_ASSIGN_OFF (Or.inl rfl)
    (by decide)
    ⟨List.replicate 23 0 ++ [1] ++ List.replicate 8 0,
     List.replicate 23 0 ++ [1, 1] ++ List.replicate 7 0⟩ (by decide)
  exact ⟨(h.2 23 (by omega)).trans (by decide),
    (h.2 0 (by omega)).trans (by decide)⟩

/-- C3: for distinct 1-based owned indices in `[1, 32]` and arbitrary set
indices and padding, the mask vector is `OWNED(1)` exactly at the owned
positions and `0` everywhere else, its number of `1` entries equals the
number of owned indices, and an empty owned list yields the all-zero
mask. -/
theorem dio_writer_mask_spec (set_idx owned_idx : List Int) (padding : Nat)
    (hnd : owned_idx.Nodup)
    (howned : ∀ i ∈ owned_idx, 1 ≤ i ∧ i ≤ 32)
    (v : DioVectors) (hv : dioVectors set_idx owned_idx padding = some v) :
    v.mask.length = 32 ∧
    (∀ p : Nat, p < 32 →
      v.mask[p]? = if ((p : Int) + 1) ∈ owned_idx then some 1 else some 0) ∧
    v.mask.count 1 = owned_idx.length ∧
    (owned_idx = [] → v.mask = List.replicate 32 0) := by
  obtain ⟨hlen, hpt⟩ := mask_spec set_idx owned_idx padding v howned hv
  refine ⟨hlen, hpt, ?_, ?_⟩
  · have h := mask_count_ones owned_idx v.mask howned hlen hpt
    rwa [hnd.dedup] at h
  · intro h
    subst h
    apply List.ext_getElem?
    intro n
    by_cases hn : n < 32
    · rw [hpt n hn, List.getElem?_replicate_of_lt hn]
      simp
    · rw [List.getElem?_eq_none (by omega),
        List.getElem?_eq_none (by rw [List.length_replicate]; omega)]

/-- C3 witness: `owned = {17, 32}` marks exactly 1-based positions 17 and
32; the mask has two `1` entries, and position 1 stays `0`. -/
theorem dio_writer_mask_spec_witness :
    (List.replicate 16 0 ++ [1] ++ List.replicate 14 0 ++ [1] : List Nat).count 1 = 2 ∧
    (List.replicate 16 0 ++ [1] ++ List.replicate 14 0 ++ [1] : List Nat)[16]? = some 1 ∧
    (List.replicate 16 0 ++ [1] ++ List.replicate 14 0 ++ [1] : List Nat)[0]? = some 0 := by
  have h := dio_writer_mask_spec [] [17, 32] DIO_ASSIGN_ON (by decide) (by decide)
    ⟨List.replicate 32 1,
     List.replicate 16 0 ++ [1] ++ List.replicate 14 0 ++ [1]⟩ (by decide)
  exact ⟨h.2.2.1.trans (by decide), (h.2.1 16 (by omega)).trans (by decide),
    (h.2.1 0 (by omega)).trans (by decide)⟩

/-- C4: when the hardware collaborator raises `AttributeError` (capability
missing), the writer completes without the exception escaping, returns
`False`, and emits error diagnostics (two `logerr` lines); a collaborator
that answers the write instead (even rejecting it) produces zero error
diagnostics, so the two failure kinds are distinguished. -/
theorem dio_writer_capability_missing (set_idx owned_idx : List Int)
    (padding : Nat) (hw : List Nat → List Nat → HwResponse) (v : DioVectors)
    (hv : dioVectors set_idx owned_idx padding = some v)
    (hmiss : hw v.dout v.mask = HwResponse.attributeError) :
    dio_writer hw set_idx owned_idx padding =
      some ⟨false, [(v.dout, v.mask)], 2⟩ ∧
    ∀ (hw2 : List Nat → List Nat → HwResponse) (b : Bool),
      hw2 v.dout v.mask = HwResponse.ok b →
      dio_writer hw2 set_idx owned_idx padding =
        some ⟨b, [(v.dout, v.mask)], 0⟩ := by
  constructor
  · simp only [dio_writer, hv, hmiss]
  · intro hw2 b hb
    simp only [dio_writer, hv, hb]

/-- C4 witness: a capability-missing collaborator on scenario A yields a
completed call with result `False` and two error lines; an accepting
collaborator yields `True` with zero error lines. -/
theorem dio_writer_capability_missing_witness :
    dio_writer (fun _ _ => HwResponse.attributeError) [24] [24, 25]
        DIO_ASSIGN_OFF =
      some ⟨false,
        [(List.replicate 23 0 ++ [1] ++ List.replicate 8 0,
          List.replicate 23 0 ++ [1, 1] ++ List.replicate 7 0)], 2⟩ ∧
    dio_writer (fun _ _ => HwResponse.ok true) [24] [24, 25] DIO_ASSIGN_OFF =
      some ⟨true,
        [(List.replicate 23 0 ++ [1] ++ List.replicate 8 0,
          List.replicate 23 0 ++ [1, 1] ++ List.replicate 7 0)], 0⟩ := by
  have h := dio_writer_capability_missing [24] [24, 25] DIO_ASSIGN_OFF
    (fun _ _ => HwResponse.attributeError)
    ⟨List.replicate 23 0 ++ [1] ++ List.replicate 8 0,
     List.replicate 23 0 ++ [1, 1] ++ List.replicate 7 0⟩ (by decide) rfl
  exact ⟨h.1, h.2 (fun _ _ => HwResponse.ok true) true rfl⟩

/-- C5: what `__init__` actually does on a missing collaborator.  With a
falsy `parent` the constructor returns normally (`Except.ok`, no raised
error) and the `_parent` attribute is never assigned, leaving a partially
initialized object instead of failing fast. -/
theorem baseHandsInit_none_silent :
    baseHandsInit (none : Option Unit) = Except.ok ⟨none⟩ := rfl

/-- C6: every gesture operation of the base hand controller fails with the
single fixed diagnostic message rather than silently succeeding. -/
theorem gestureCall_not_implemented (g : Gesture) :
    gestureCall g =
      Except.error "The method is not implemented in the derived class" := by
  cases g <;> rfl

/-- C6 witness: one concrete gesture produces the fixed diagnostic. -/
theorem gestureCall_not_implemented_witness :
    gestureCall Gesture.gripper_l_close =
      Except.error "The method is not implemented in the derived class" :=
  gestureCall_not_implemented Gesture.gripper_l_close

/-- C7: each writer call hands exactly one `(dout, mask)` pair to the
hardware capability (no retry, no queueing), and when the capability
answers with a boolean the writer returns exactly that boolean. -/
theorem dio_writer_invokes_once (set_idx owned_idx : List Int) (padding : Nat)
    (hw : List Nat → List Nat → HwResponse) (v : DioVectors)
    (hv : dioVectors set_idx owned_idx padding = some v) :
    (dio_writer hw set_idx owned_idx padding).map (fun r => r.hwCalls) =
      some [(v.dout, v.mask)] ∧
    ∀ b : Bool, hw v.dout v.mask = HwResponse.ok b →
      (dio_writer hw set_idx owned_idx padding).map (fun r => r.retval) =
        some b := by
  constructor
  · simp only [dio_writer, hv]
    cases hw v.dout v.mask <;> rfl
  · intro b hb
    simp [dio_writer, hv, hb]

/-- C7 witness: on scenario A with a collaborator answering `False`
(hardware rejected the write), the hardware sees exactly one call and the
writer returns that same `False`. -/
theorem dio_writer_invokes_once_witness :
    (dio_writer (fun _ _ => HwResponse.ok false) [24] [24, 25]
        DIO_ASSIGN_OFF).map (fun r => r.hwCalls) =
      some [(List.replicate 23 0 ++ [1] ++ List.replicate 8 0,
             List.replicate 23 0 ++ [1, 1] ++ List.replicate 7 0)] ∧
    (dio_writer (fun _ _ => HwResponse.ok false) [24] [24, 25]
        DIO_ASSIGN_OFF).map (fun r => r.retval) = some false := by
  have h := dio_writer_invokes_once [24] [24, 25] DIO_ASSIGN_OFF
    (fun _ _ => HwResponse.ok false)
    ⟨List.replicate 23 0 ++ [1] ++ List.replicate 8 0,
     List.replicate 23 0 ++ [1, 1] ++ List.replicate 7 0⟩ (by decide)
  exact ⟨h.1, h.2 false rfl⟩

/-- C8: the `(dout, mask)` pairs handed to the hardware are a function of
the arguments alone: two calls with identical `set`, `owned` and padding,
even against different collaborators, pass byte-identical vectors. -/
theorem dio_writer_vectors_deterministic (set_idx owned_idx : List Int)
    (padding : Nat) (hw1 hw2 : List Nat → List Nat → HwResponse) :
    (dio_writer hw1 set_idx owned_idx padding).map (fun r => r.hwCalls) =
    (dio_writer hw2 set_idx owned_idx padding).map (fun r => r.hwCalls) := by
  cases h : dioVectors set_idx owned_idx padding with
  | none => simp [dio_writer, h]
  | some v =>
    simp only [dio_writer, h]
    cases hw1 v.dout v.mask <;> cases hw2 v.dout v.mask <;> rfl

/-- C8 witness: an accepting and a capability-missing collaborator receive
the identical vectors on scenario A. -/
theorem dio_writer_vectors_deterministic_witness :
    (dio_writer (fun _ _ => HwResponse.ok false) [24] [24, 25]
        DIO_ASSIGN_OFF).map (fun r => r.hwCalls) =
    (dio_writer (fun _ _ => HwResponse.attributeError) [24] [24, 25]
        DIO_ASSIGN_OFF).map (fun r => r.hwCalls) :=
  dio_writer_vectors_deterministic [24] [24, 25] DIO_ASSIGN_OFF
    (fun _ _ => HwResponse.ok false) (fun _ _ => HwResponse.attributeError)

/-- C9 counterexample: the claim that an index value of 0 sets no
output-vector or mask-vector position is false: adding 0 to the index
lists changes the computed vectors. -/
theorem index_zero_counterexample :
    dioVectors [0] [0] DIO_ASSIGN_OFF ≠ dioVectors [] [] DIO_ASSIGN_OFF := by
  decide

/-- C9 amended: an index value of 0 IS addressable: the writer computes
`0 - 1 = -1`, which Python list assignment resolves to the last element,
so index 0 sets 1-based position 32 (the output bit to the alternate
value, the mask bit to 1) and touches no other position. -/
theorem index_zero_addresses_position_32 (l : List Nat) (w : Nat)
    (h : l.length = 32) :
    pyListSet l ((0 : Int) - 1) w = some (l.set 31 w) ∧
    dioVectors [0] [0] DIO_ASSIGN_OFF =
      some ⟨List.replicate 31 DIO_ASSIGN_OFF ++ [DIO_ASSIGN_ON],
            List.replicate 31 0 ++ [1]⟩ ∧
    dioVectors [0] [0] DIO_ASSIGN_ON =
      some ⟨List.replicate 31 DIO_ASSIGN_ON ++ [DIO_ASSIGN_OFF],
            List.replicate 31 0 ++ [1]⟩ := by
  refine ⟨?_, by decide, by decide⟩
  unfold pyListSet
  rw [if_neg (by omega), if_pos (by omega)]
  have h31 : ((0 : Int) - 1 + (l.length : Int)).toNat = 31 := by omega
  rw [h31]

/-- C9 witness: the index-0 assignment on a concrete 32-element list writes
exactly the last position. -/
theorem index_zero_addresses_position_32_witness :
    pyListSet (List.replicate 32 0) ((0 : Int) - 1) 1 =
      some (List.replicate 31 0 ++ [1]) := by
  have h := index_zero_addresses_position_32 (List.replicate 32 0) 1 (by decide)
  exact h.1.trans (by decide)

/-- C10: when the owned-index list contains duplicates (all values in
`[1, 32]`), the mask is still `1` exactly at the distinct listed 1-based
positions, and its number of `1` entries equals the number of distinct
values (the length of the deduplicated list), not the list length. -/
theorem dio_writer_mask_duplicates (set_idx owned_idx : List Int)
    (padding : Nat) (howned : ∀ i ∈ owned_idx, 1 ≤ i ∧ i ≤ 32)
    (v : DioVectors) (hv : dioVectors set_idx owned_idx padding = some v) :
    (∀ p : Nat, p < 32 →
      v.mask[p]? = if ((p : Int) + 1) ∈ owned_idx then some 1 else some 0) ∧
    v.mask.count 1 = owned_idx.dedup.length := by
  obtain ⟨hlen, hpt⟩ := mask_spec set_idx owned_idx padding v howned hv
  exact ⟨hpt, mask_count_ones owned_idx v.mask howned hlen hpt⟩

/-- C10 witness: `owned = [24, 24, 25]` (length 3, two distinct values)
yields a mask with exactly two `1` entries, at 1-based positions 24
and 25. -/
theorem dio_writer_mask_duplicates_witness :
    (List.replicate 23 0 ++ [1, 1] ++ List.replicate 7 0 : List Nat).count 1 = 2 ∧
    ([24, 24, 25] : List Int).length = 3 ∧
    (List.replicate 23 0 ++ [1, 1] ++ List.replicate 7 0 : List Nat)[23]? = some 1 := by
  have h := dio_writer_mask_duplicates [24] [24, 24, 25] DIO_ASSIGN_OFF
    (by decide)
    ⟨List.replicate 23 0 ++ [1] ++ List.replicate 8 0,
     List.replicate 23 0 ++ [1, 1] ++ List.replicate 7 0⟩ (by decide)
  exact ⟨h.2.trans (by decide), by decide, (h.1 23 (by omega)).trans (by decide)⟩
